import Mathlib

/-!
Verification development for the Chicago PPLTT transaction-tax analysis
pipeline.  Each namespace below is a shallow embedding of one Python source
file of the repository: pure Lean functions mirror the dataframe operations
of the scripts, with timestamps embedded as integer day ordinals (days since
2022-01-01), money and float columns embedded as rationals, and fallible
library calls embedded as `Except` values.
-/

/-! ## Calendar arithmetic

Day ordinals relative to 2022-01-01, with the Gregorian leap rule, used to
embed `pd.Timestamp` values and `pd.date_range(..., freq=MS)` month grids. -/

namespace Calendar

def isLeap (y : Nat) : Bool :=
  (y % 4 == 0 && y % 100 != 0) || y % 400 == 0

def daysInMonth (y m : Nat) : Nat :=
  if m = 2 then (if isLeap y then 29 else 28)
  else if m = 4 ∨ m = 6 ∨ m = 9 ∨ m = 11 then 30
  else 31

def yearDays (y : Nat) : Nat := if isLeap y then 366 else 365

/-- Days from 2022-01-01 to `y`-01-01 (for `y ≥ 2022`). -/
def daysFrom2022 (y : Nat) : Nat :=
  (List.range (y - 2022)).foldl (fun acc i => acc + yearDays (2022 + i)) 0

/-- Day ordinal of the first day of month `m` of year `y`. -/
def monthStartOrd (y m : Nat) : Nat :=
  daysFrom2022 y + (List.range (m - 1)).foldl (fun acc i => acc + daysInMonth y (i + 1)) 0

/-- Day ordinal of date `y`-`m`-`d`. -/
def dateOrd (y m d : Nat) : Int := (monthStartOrd y m : Int) + (d - 1 : Nat)

end Calendar

/-! ## `code/data_prep/panelize.py`

Constant-individual-panel construction: keep only cardlinkids with at least
one transaction in every 70-day window of the study period. -/

namespace Panelize

/-- One row of `chatgpt_card_info_2025_12_26.parquet`. -/
structure CardInfoRow where
  cardid : String
  cardlinkid : String
  source_group : Int
  cardtype : String
deriving DecidableEq, Repr

/-- One row of an `activity_dates_*.parquet` file: a transaction date for a
card.  `trans_date` is a day ordinal. -/
structure ActivityRow where
  cardid : String
  trans_date : Int
deriving DecidableEq, Repr

/-- `generate_windows`' loop body.  `current` is the loop variable; the
`0 < windowDays` hypothesis reflects that the Python loop only terminates for
a positive window length (the script always calls it with 70). -/
def generateWindowsAux (windowDays : Int) (hw : 0 < windowDays) (endT current : Int) :
    List (Int × Int) :=
  if _h : current < endT then
    -- window_end = current + window_days; remaining = (end - window_end).days
    if current + windowDays ≥ endT then
      [(current, endT)]
    else
      if endT - (current + windowDays) < windowDays then
        [(current, endT)]
      else
        (current, current + windowDays) ::
          generateWindowsAux windowDays hw endT (current + windowDays)
  else []
termination_by (endT - current).toNat
decreasing_by omega

/-- `generate_windows(start, end, window_days)`: non-overlapping windows
covering the study period; a too-short final window is merged into the
previous one. -/
def generateWindows (start endT windowDays : Int) (hw : 0 < windowDays) :
    List (Int × Int) :=
  generateWindowsAux windowDays hw endT start

def STUDY_START : Int := Calendar.dateOrd 2023 3 1
def STUDY_END : Int := Calendar.dateOrd 2024 11 30
def WINDOW_DAYS : Int := 70

/-- The windows the script actually generates. -/
def studyWindows : List (Int × Int) :=
  generateWindows STUDY_START STUDY_END WINDOW_DAYS (by norm_num [WINDOW_DAYS])

/-- `source_group == 1 AND cardtype == DEBIT` (the USA1 debit exclusion). -/
def usa1Debit (r : CardInfoRow) : Bool :=
  r.source_group == 1 && r.cardtype == "DEBIT"

/-- `load_card_info`: drop USA1 debit cards, keep `(cardid, cardlinkid)`. -/
def loadCardInfo (cardInfo : List CardInfoRow) : List (String × String) :=
  (cardInfo.filter (fun r => !(usa1Debit r))).map (fun r => (r.cardid, r.cardlinkid))

/-- Lookup in a Python `dict(zip(keys, vals))`: the LAST binding of a key
wins. -/
def dictLookup (l : List (String × String)) (k : String) : Option String :=
  (l.reverse.find? (fun p => p.1 == k)).map Prod.snd

/-- `get_cardlinkids_in_window`: the cardlinkids of valid cardids having a
transaction dated inside `[ws, we]` (both bounds inclusive in the script).
Streaming over row groups and over the two activity files unions the
per-chunk results, so the whole transaction list is processed at once here. -/
def activeLinkids (pairs : List (String × String)) (trans : List ActivityRow)
    (ws we : Int) : List String :=
  (trans.filter (fun t => decide (ws ≤ t.trans_date) && decide (t.trans_date ≤ we))).filterMap
    (fun t => dictLookup pairs t.cardid)

/-- `main`, step 3: start from all cardlinkids and intersect with every
window's active set (set intersection embedded as membership filter). -/
def panelMembers (cardInfo : List CardInfoRow) (trans : List ActivityRow)
    (windows : List (Int × Int)) : List String :=
  let pairs := loadCardInfo cardInfo
  let allIds := pairs.map Prod.snd
  windows.foldl
    (fun panel w => panel.filter (fun l => (activeLinkids pairs trans w.1 w.2).contains l))
    allIds

end Panelize

/-! ## `code/data_prep/compute_monthly_zip3.py`

Modal ZIP3 per card-month from the noisy address map, with a fast path for
cardids having a single address row. -/

namespace Zip3

/-- One row of `chatgpt_demographics_tv.parquet` (the address map).
`valid_begin`/`valid_end` are day ordinals; `zip` is the raw ZIP column,
which both paths stringify into `zip3`. -/
structure AddrRow where
  cardid : String
  zip : String
  valid_begin : Int
  valid_end : Int
deriving DecidableEq, Repr

/-- A calendar month of the grid: its `(year, month)` label, first-day
ordinal `s` (the `MS` timestamp) and last-day ordinal `e` (`m + MonthEnd(1)`). -/
structure MonthIv where
  ym : Nat × Nat
  s : Int
  e : Int
deriving DecidableEq, Repr

/-- `get_months()`: `pd.date_range('2022-01-01', '2025-07-01', freq='MS')`,
i.e. the 43 month starts from Jan 2022 through Jul 2025. -/
def monthsYM : List (Nat × Nat) :=
  (List.range 43).map (fun i => (2022 + i / 12, i % 12 + 1))

def monthIv (p : Nat × Nat) : MonthIv :=
  { ym := p
    s := Calendar.monthStartOrd p.1 p.2
    e := (Calendar.monthStartOrd p.1 p.2 : Int) + Calendar.daysInMonth p.1 p.2 - 1 }

def months : List MonthIv := monthsYM.map monthIv

/-- The row-covers-month test of the multi-row path:
`row.valid_begin <= m_end and row.valid_end >= m`. -/
def overlaps (r : AddrRow) (mo : MonthIv) : Bool :=
  decide (r.valid_begin ≤ mo.e) && decide (mo.s ≤ r.valid_end)

/-- Days the row contributes to the month:
`(min(valid_end, m_end) - max(valid_begin, m)).days + 1`. -/
def overlapDays (r : AddrRow) (mo : MonthIv) : Int :=
  min r.valid_end mo.e - max r.valid_begin mo.s + 1

/-- All the address rows of one cardid. -/
def rowsOf (tv : List AddrRow) (c : String) : List AddrRow :=
  tv.filter (fun r => r.cardid == c)

/-- The per-(row, month) records built by the inner loops of
`process_multi_row_cardids`, before aggregation. -/
def monthRecords (rows : List AddrRow) : List (AddrRow × MonthIv) :=
  rows.flatMap (fun r => (months.filter (fun mo => overlaps r mo)).map (fun mo => (r, mo)))

/-- `groupby([cardid, year_month, zip3])[days].sum()` restricted to one
cardid and one month: total overlap days credited to ZIP3 `z`. -/
def totalDays (rows : List AddrRow) (mo : MonthIv) (z : String) : Int :=
  (((rows.filter (fun r => overlaps r mo)).filter (fun r => r.zip == z)).map
    (fun r => overlapDays r mo)).sum

/-- The ZIP3s holding at least one record for this month (the group keys). -/
def candZips (rows : List AddrRow) (mo : MonthIv) : List String :=
  ((rows.filter (fun r => overlaps r mo)).map (fun r => r.zip)).dedup

/-- `idxmax` over the per-ZIP3 day totals: the first key attaining the
maximal total.  (pandas breaks ties by group order; the claims only ever ask
for SOME maximiser, so the tie order is irrelevant to the theorems below.) -/
def pickModal (rows : List AddrRow) (mo : MonthIv) : List String → Option String :=
  List.foldl
    (fun best z =>
      match best with
      | none => some z
      | some b => if totalDays rows mo b < totalDays rows mo z then some z else some b)
    none

/-- Cardids with more than one address row (`counts > 1`). -/
def multiCardids (tv : List AddrRow) : List String :=
  ((tv.map (fun r => r.cardid)).dedup).filter (fun c => 1 < (rowsOf tv c).length)

/-- Cardids with exactly one address row (`counts == 1`). -/
def singleCardids (tv : List AddrRow) : List String :=
  ((tv.map (fun r => r.cardid)).dedup).filter (fun c => (rowsOf tv c).length = 1)

/-- `process_multi_row_cardids`: one `(cardid, year_month, zip3)` record per
card-month holding address records, the ZIP3 being the modal one.  (The
script chunks the cardid list, but grouping is per cardid, so chunking does
not change any per-cardid group.) -/
def processMultiRow (tv : List AddrRow) (cards : List String) :
    List (String × (Nat × Nat) × String) :=
  cards.flatMap (fun c =>
    months.filterMap (fun mo =>
      (pickModal (rowsOf tv c) mo (candZips (rowsOf tv c) mo)).map
        (fun z => (c, mo.ym, z))))

/-- `process_single_row_cardids`: cross-join cardids with all months, then
keep the months whose START timestamp lies inside `[valid_begin, valid_end]`
(`cross.month >= valid_begin  AND  cross.month <= valid_end`). -/
def processSingleRow (tv : List AddrRow) (cards : List String) :
    List (String × (Nat × Nat) × String) :=
  (tv.filter (fun r => cards.contains r.cardid)).flatMap (fun r =>
    (months.filter (fun mo => decide (r.valid_begin ≤ mo.s) && decide (mo.s ≤ r.valid_end))).map
      (fun mo => (r.cardid, mo.ym, r.zip)))

/-- `compute_all_fast`: concatenation of the two paths over the
single/multi split. -/
def computeAllFast (tv : List AddrRow) : List (String × (Nat × Nat) × String) :=
  processSingleRow tv (singleCardids tv) ++ processMultiRow tv (multiCardids tv)

end Zip3

/-! ## `chicago_synth_control.py` and `chicago_did.py` (synthetic control)

Donor selection, the constrained least-squares weight problem handed to
`scipy.optimize.minimize(..., method=SLSQP, bounds=[(0,1)]*n,
constraints=[sum(w) - 1 == 0])`, and the synthetic series built from the
fitted weights. -/

namespace SynthControl

/-- The treated unit. -/
def TREATED_ZIP : String := "606"

/-- The regex `^\d{3}$` from the donor-selection step. -/
def isValidZip3 (s : String) : Bool :=
  s.length == 3 && s.toList.all Char.isDigit

/-- Donor selection (`main` of both scripts): ZIP3s whose size metric lies
within the window around Chicago's, Chicago itself excluded, 3-digit codes
only.  `counts` is the per-ZIP3 size table. -/
def selectDonors (counts : List (String × ℚ)) (chicagoSize sizeWindow : ℚ) :
    List String :=
  ((((counts.filter (fun p =>
        decide (chicagoSize * (1 - sizeWindow) ≤ p.2) &&
        decide (p.2 ≤ chicagoSize * (1 + sizeWindow)))).filter
      (fun p => p.1 != TREATED_ZIP)).filter
      (fun p => isValidZip3 p.1)).map Prod.fst)

/-- `objective(w) = np.mean((y_treated - X_donors @ w) ** 2)` over the `T`
fitting months and `n` valid donors. -/
def objective {T n : ℕ} (y : Fin T → ℚ) (X : Fin T → Fin n → ℚ) (w : Fin n → ℚ) : ℚ :=
  (∑ t, (y t - ∑ j, X t j * w j) ^ 2) / T

/-- The feasible set passed to the optimizer: `bounds = [(0, 1)] * n` and the
equality constraint `fun w: np.sum(w) - 1 == 0`. -/
def codeFeasible {n : ℕ} (w : Fin n → ℚ) : Prop :=
  (∀ j, 0 ≤ w j ∧ w j ≤ 1) ∧ (∑ j, w j) - 1 = 0

/-- What an exact constrained minimizer returns on the problem the script
passes to `scipy.optimize.minimize`: a feasible point with minimal objective.
The library call is embedded by this contract. -/
def SolvesFitProblem {T n : ℕ} (y : Fin T → ℚ) (X : Fin T → Fin n → ℚ)
    (w : Fin n → ℚ) : Prop :=
  codeFeasible w ∧ ∀ v : Fin n → ℚ, codeFeasible v → objective y X w ≤ objective y X v

/-- The claim's own side conditions, written from the spec: entries in
`[0, 1]` and total exactly `1`. -/
def specConvexWeights {n : ℕ} (w : Fin n → ℚ) : Prop :=
  (∀ j, w j ∈ Set.Icc (0 : ℚ) 1) ∧ ∑ j, w j = 1

/-- The claim's objective, written from the spec: the mean of squared
differences between the treated series and the donor design matrix times the
weight vector. -/
def specMeanSqError {T n : ℕ} (y : Fin T → ℚ) (X : Fin T → Fin n → ℚ)
    (w : Fin n → ℚ) : ℚ :=
  (∑ t, (y t - (fun s => ∑ j, X s j * w j) t) ^ 2) / T

/-- `weight_df[weight_df.weight > 0.01]`: donors kept for the full-period
synthetic series, with their (unrenormalized) weights. -/
def filterTop (donors : List String) (w : List ℚ) : List (String × ℚ) :=
  (donors.zip w).filter (fun p => decide ((1 : ℚ) / 100 < p.2))

/-- `full_data[top_donors].values @ top_weights` at one period, `outcome z`
being donor `z`'s log outcome that period. -/
def synthVal (top : List (String × ℚ)) (outcome : String → ℚ) : ℚ :=
  (top.map (fun p => outcome p.1 * p.2)).sum

end SynthControl

/-! ## `code/robustness/helpers/plot_placebo_robustness.py`

Chicago RMSPE statistics from `synth_results.dta`, the good-pre-fit filter,
and the placebo-histogram p-value. -/

namespace Placebo

/-- One row of `synth_results.dta`: `_time`, `_Y_treated`, `_Y_synthetic`. -/
structure SynthRow where
  time : Int
  yTreated : ℚ
  ySynth : ℚ
deriving DecidableEq, Repr

/-- `results.gap = _Y_treated - _Y_synthetic`. -/
def gap (r : SynthRow) : ℚ := r.yTreated - r.ySynth

/-- `results.gap_sq = gap ** 2`. -/
def gapSq (r : SynthRow) : ℚ := gap r ^ 2

/-- `pre = results[results._time < 10]`. -/
def preRows (rs : List SynthRow) : List SynthRow :=
  rs.filter (fun r => decide (r.time < 10))

/-- `post = results[results._time >= 10]`. -/
def postRows (rs : List SynthRow) : List SynthRow :=
  rs.filter (fun r => decide (10 ≤ r.time))

/-- `Series.mean()`. -/
def qmean (l : List ℚ) : ℚ := l.sum / l.length

/-- `pre.gap_sq.mean()`: the squared pre-period RMSPE. -/
def preMspe (rs : List SynthRow) : ℚ := qmean ((preRows rs).map gapSq)

/-- `post.gap_sq.mean()`: the squared post-period RMSPE. -/
def postMspe (rs : List SynthRow) : ℚ := qmean ((postRows rs).map gapSq)

/-- The claim's pre-period formula, written from the spec's words: the mean
of squared treated-minus-synthetic gaps over periods with `_time < 10`
(the pre-RMSPE is its square root). -/
def specPreMspe (rs : List SynthRow) : ℚ :=
  ((rs.filter (fun x => decide (x.time < 10))).map
      (fun x => (x.yTreated - x.ySynth) ^ 2)).sum /
    ((rs.filter (fun x => decide (x.time < 10))).length : ℚ)

/-- The claim's post-period formula, written from the spec's words: the mean
of squared gaps over periods with `_time >= 10`. -/
def specPostMspe (rs : List SynthRow) : ℚ :=
  ((rs.filter (fun x => decide (10 ≤ x.time))).map
      (fun x => (x.yTreated - x.ySynth) ^ 2)).sum /
    ((rs.filter (fun x => decide (10 ≤ x.time))).length : ℚ)

/-- One row of the merged placebo dataframe.  `ratioQ` embeds the `ratio`
column (post-RMSPE over pre-RMSPE). -/
structure PlaceboRow where
  zip3 : String
  pre_rmspe : ℚ
  ratioQ : ℚ
  is_chicago : Bool
deriving DecidableEq, Repr

/-- The Chicago row appended by `main` (`pre_rmspe`, `ratio` taken from
`get_chicago_stats`). -/
def chicagoRow (chiPre chiRatioVal : ℚ) : PlaceboRow :=
  { zip3 := "606", pre_rmspe := chiPre, ratioQ := chiRatioVal, is_chicago := true }

/-- `df = pd.concat([df, chicago_row])`. -/
def buildDf (placebos : List PlaceboRow) (chiPre chiRatioVal : ℚ) : List PlaceboRow :=
  placebos ++ [chicagoRow chiPre chiRatioVal]

/-- `good = df[df.pre_rmspe < threshold]`. -/
def goodFilter (df : List PlaceboRow) (threshold : ℚ) : List PlaceboRow :=
  df.filter (fun r => decide (r.pre_rmspe < threshold))

/-- `n_extreme = (good.ratio >= chi.ratio).sum()`. -/
def nExtreme (good : List PlaceboRow) (chiRatioVal : ℚ) : ℕ :=
  (good.filter (fun r => decide (chiRatioVal ≤ r.ratioQ))).length

/-- `pval = n_extreme / len(good)` (the unguarded histogram division). -/
def histPval (good : List PlaceboRow) (chiRatioVal : ℚ) : ℚ :=
  (nExtreme good chiRatioVal : ℚ) / (good.length : ℚ)

end Placebo

/-! ## `load_data.py`

`load_transactions` with the panel filter, embedded over an explicit
file-system state; pandas errors surface as `Except` errors
(`pd.read_parquet` of a missing file raises `FileNotFoundError`,
`pd.concat([])` raises `ValueError`). -/

namespace LoadData

/-- One row of a `chatgpt_transactions_{year}.parquet` file. -/
structure TransRow where
  cardid : String
  service : String
  merchid : String
  trans_amount : ℚ
  trans_date : Int
deriving DecidableEq, Repr

/-- The files the loader touches: per-year transaction files, the panel file
written by `panelize.py`, and the card-info file.  `none` means the file does
not exist on disk. -/
structure FileSys where
  transFiles : Nat → Option (List TransRow)
  panelFile : Option (List String)
  cardInfoFile : Option (List Panelize.CardInfoRow)

inductive PyError where
  | fileNotFound
  | valueErr
deriving DecidableEq, Repr

/-- The `AMOUNT_FILTER` config setting. -/
inductive AmountFilter where
  | plusRange
  | wideRange
  | outside
  | allAmounts
deriving DecidableEq, Repr

/-- `_get_panel_cardids` with an empty module-level cache: raise
`FileNotFoundError` when the panel file is missing; otherwise read it, read
card info (`pd.read_parquet` itself raises `FileNotFoundError` when that
file is missing), re-apply the USA1-debit exclusion, and keep the cardids
whose cardlinkid is in the panel. -/
def getPanelCardids (fs : FileSys) : Except PyError (List String) :=
  match fs.panelFile with
  | none => .error .fileNotFound
  | some panelLinkids =>
    match fs.cardInfoFile with
    | none => .error .fileNotFound
    | some cardInfo =>
      let kept := cardInfo.filter (fun r => !(Panelize.usa1Debit r))
      .ok ((kept.filter (fun r => panelLinkids.contains r.cardlinkid)).map
        (fun r => r.cardid))

/-- `trans.merchid.value_counts().head(n)`: the `n` merchants with the most
rows, most frequent first. -/
def topNMerchids (trans : List TransRow) (n : Nat) : List String :=
  (((trans.map (fun t => t.merchid)).dedup).mergeSort
    (fun a b =>
      (trans.filter (fun t => t.merchid == b)).length ≤
        (trans.filter (fun t => t.merchid == a)).length)).take n

/-- The amount filter of `load_transactions`. -/
def applyAmountFilter (af : AmountFilter) (trans : List TransRow) : List TransRow :=
  match af with
  | .plusRange =>
    trans.filter (fun t => decide ((20 : ℚ) ≤ t.trans_amount) && decide (t.trans_amount ≤ 22))
  | .wideRange =>
    trans.filter (fun t => decide ((15 : ℚ) ≤ t.trans_amount) && decide (t.trans_amount ≤ 25))
  | .outside =>
    trans.filter (fun t => decide (t.trans_amount < 20) || decide ((22 : ℚ) < t.trans_amount))
  | .allAmounts => trans

/-- `load_transactions` (module caches empty).  Missing yearly files are
skipped; if none is present, `pd.concat([])` raises `ValueError`.  Then the
service filter, the optional panel filter, the optional top-merchants filter
(computed on the current sample), and the amount filter. -/
def loadTransactions (fs : FileSys) (services : List String) (years : List Nat)
    (amountFilter : AmountFilter) (useTopMerchants : Bool) (topN : Nat)
    (usePanel : Bool) : Except PyError (List TransRow) := do
  let dfs := years.filterMap fs.transFiles
  if dfs.isEmpty then
    throw .valueErr
  let trans := dfs.flatten
  let trans := trans.filter (fun t => services.contains t.service.toLower)
  let trans ←
    if usePanel then do
      let panelCardids ← getPanelCardids fs
      pure (trans.filter (fun t => panelCardids.contains t.cardid))
    else
      pure trans
  let trans :=
    if useTopMerchants then
      trans.filter (fun t => (topNMerchids trans topN).contains t.merchid)
    else
      trans
  pure (applyAmountFilter amountFilter trans)

end LoadData

/-! ## `chicago_did.py` (TWFE DiD branch)

The week-by-ZIP3 panel's treatment indicator and the fixed-effects
regression specification handed to
`smf.ols('log_y ~ treated_post + C(zip3) + C(month_str)', ...)`. -/

namespace Did

/-- `TREATMENT_DATE = '2023-10-01'`. -/
def TREATMENT_DATE : Int := Calendar.dateOrd 2023 10 1

/-- One observation of the week-zip3 panel.  `week_dt` is
`week.to_timestamp()`, the start date of the week period. -/
structure PanelObs where
  zip3 : String
  month_str : String
  week_dt : Int
deriving DecidableEq, Repr

/-- `df.treated = (df.zip3 == TREATED_ZIP).astype(int)`. -/
def treated (r : PanelObs) : Int :=
  if r.zip3 = SynthControl.TREATED_ZIP then 1 else 0

/-- `df.post = (df.week_dt >= TREATMENT_DATE).astype(int)`. -/
def post (r : PanelObs) : Int :=
  if TREATMENT_DATE ≤ r.week_dt then 1 else 0

/-- `df.treated_post = df.treated * df.post`. -/
def treatedPost (r : PanelObs) : Int := treated r * post r

/-- One right-hand-side term of a patsy formula: a plain numeric regressor
or a `C(col)` categorical expanded into per-level dummies. -/
inductive RegTerm where
  | var : String → RegTerm
  | cat : String → RegTerm
deriving DecidableEq, Repr

def RegTerm.isVar : RegTerm → Bool
  | .var _ => true
  | .cat _ => false

/-- The right-hand side of `'log_y ~ treated_post + C(zip3) + C(month_str)'`. -/
def didFormulaTerms : List RegTerm :=
  [.var "treated_post", .cat "zip3", .cat "month_str"]

end Did

/-! ## Helper lemmas -/

theorem foldl_filter_mem {α β : Type _} (f : β → α → Bool) (init : List α)
    (ws : List β) (x : α) :
    x ∈ ws.foldl (fun acc w => acc.filter (f w)) init ↔
      x ∈ init ∧ ∀ w ∈ ws, f w x = true := by
  induction ws generalizing init with
  | nil => simp
  | cons w ws ih =>
    simp only [List.foldl_cons, ih, List.mem_filter, List.mem_cons]
    constructor
    · rintro ⟨⟨hx, hw⟩, hall⟩
      exact ⟨hx, fun w' hw' => by rcases hw' with rfl | hw' <;> [exact hw; exact hall w' hw']⟩
    · rintro ⟨hx, hall⟩
      exact ⟨⟨hx, hall w (Or.inl rfl)⟩, fun w' hw' => hall w' (Or.inr hw')⟩

theorem sum_filter_add_sum_filter_not {α : Type _} (l : List α) (p : α → Bool)
    (f : α → ℚ) :
    ((l.filter p).map f).sum + ((l.filter (fun x => !(p x))).map f).sum
      = (l.map f).sum := by
  induction l with
  | nil => simp
  | cons a l ih =>
    by_cases h : p a <;> simp [List.filter_cons, h, ← ih] <;> ring

/-! ## Claim theorems -/

/-- C7: in the DiD regression panel, `treated_post` is `1` exactly on
observations with `zip3 = '606'` and week start date on or after
2023-10-01 and `0` otherwise, and the fitted formula's right-hand side
consists of the `zip3` and `month_str` fixed-effect dummies together with
`treated_post` as the single non-categorical regressor. -/
theorem c7_treated_post_indicator_and_twfe_terms :
    (∀ r : Did.PanelObs,
      Did.treatedPost r =
        if r.zip3 = "606" ∧ Did.TREATMENT_DATE ≤ r.week_dt then 1 else 0) ∧
    Did.RegTerm.cat "zip3" ∈ Did.didFormulaTerms ∧
    Did.RegTerm.cat "month_str" ∈ Did.didFormulaTerms ∧
    Did.didFormulaTerms.filter Did.RegTerm.isVar = [Did.RegTerm.var "treated_post"] := by
  refine ⟨fun r => ?_, by decide, by decide, by decide⟩
  unfold Did.treatedPost Did.treated Did.post SynthControl.TREATED_ZIP
  by_cases h1 : r.zip3 = "606" <;> by_cases h2 : Did.TREATMENT_DATE ≤ r.week_dt <;>
    simp [h1, h2]

/-- C2: a cardlinkid is in the saved panel iff it appears in the card-info
table after the USA1-debit exclusion and, for every generated 70-day window
of the study period, some cardid mapped to it has a transaction dated inside
that window — i.e. the final panel is the intersection of the initial
cardlinkid set with every window's active set. -/
theorem c2_panel_membership (cardInfo : List Panelize.CardInfoRow)
    (trans : List Panelize.ActivityRow) (l : String) :
    l ∈ Panelize.panelMembers cardInfo trans Panelize.studyWindows ↔
      ((∃ r ∈ cardInfo, Panelize.usa1Debit r = false ∧ r.cardlinkid = l) ∧
        ∀ w ∈ Panelize.studyWindows,
          ∃ t ∈ trans, w.1 ≤ t.trans_date ∧ t.trans_date ≤ w.2 ∧
            Panelize.dictLookup (Panelize.loadCardInfo cardInfo) t.cardid = some l) := by
  unfold Panelize.panelMembers
  rw [foldl_filter_mem]
  constructor
  · rintro ⟨hmem, hall⟩
    refine ⟨?_, fun w hw => ?_⟩
    · simp only [Panelize.loadCardInfo, List.map_map, List.mem_map, List.mem_filter,
        Function.comp] at hmem
      obtain ⟨r, ⟨hr, hkeep⟩, hlink⟩ := hmem
      exact ⟨r, hr, by simpa using hkeep, hlink⟩
    · have := hall w hw
      rw [List.contains_iff_exists_mem_beq] at this
      obtain ⟨a, ha, hbeq⟩ := this
      rw [beq_iff_eq] at hbeq
      subst hbeq
      simp only [Panelize.activeLinkids, List.mem_filterMap, List.mem_filter,
        Bool.and_eq_true, decide_eq_true_eq] at ha
      obtain ⟨t, ⟨⟨ht, h1, h2⟩, hl⟩⟩ := ha
      exact ⟨t, ht, h1, h2, hl⟩
  · rintro ⟨⟨r, hr, hkeep, hlink⟩, hall⟩
    refine ⟨?_, fun w hw => ?_⟩
    · simp only [Panelize.loadCardInfo, List.map_map, List.mem_map, List.mem_filter,
        Function.comp]
      exact ⟨r, ⟨hr, by simpa using hkeep⟩, hlink⟩
    · obtain ⟨t, ht, h1, h2, hl⟩ := hall w hw
      rw [List.contains_iff_exists_mem_beq]
      refine ⟨l, ?_, by simp⟩
      simp only [Panelize.activeLinkids, List.mem_filterMap, List.mem_filter,
        Bool.and_eq_true, decide_eq_true_eq]
      exact ⟨t, ⟨⟨ht, h1, h2⟩, hl⟩⟩

/-- C9: with an integer threshold multiplier above 1 and a strictly positive
Chicago pre-RMSPE, the good-pre-fit set always keeps the appended Chicago row
(whose RMSPE ratio is at least as extreme as itself), so the unguarded
histogram division never divides by zero and the reported p-value lies in
`(0, 1]`. -/
theorem c9_histogram_pvalue_positive_and_le_one (placebos : List Placebo.PlaceboRow)
    (chiPre chiRatioVal : ℚ) (mult : ℕ) (hmult : 1 < mult) (hpre : 0 < chiPre) :
    Placebo.chicagoRow chiPre chiRatioVal ∈
        Placebo.goodFilter (Placebo.buildDf placebos chiPre chiRatioVal)
          (chiPre * mult) ∧
      0 < (Placebo.goodFilter (Placebo.buildDf placebos chiPre chiRatioVal)
          (chiPre * mult)).length ∧
      0 < Placebo.histPval
          (Placebo.goodFilter (Placebo.buildDf placebos chiPre chiRatioVal)
            (chiPre * mult)) chiRatioVal ∧
      Placebo.histPval
          (Placebo.goodFilter (Placebo.buildDf placebos chiPre chiRatioVal)
            (chiPre * mult)) chiRatioVal ≤ 1 := by
  set df := Placebo.buildDf placebos chiPre chiRatioVal with hdf
  have hmultQ : (1 : ℚ) < (mult : ℚ) := by exact_mod_cast hmult
  have hthr : chiPre < chiPre * mult := by
    calc chiPre = chiPre * 1 := by ring
    _ < chiPre * mult := by
        exact mul_lt_mul_of_pos_left hmultQ hpre
  have hchimem : Placebo.chicagoRow chiPre chiRatioVal ∈ df := by
    simp [hdf, Placebo.buildDf]
  have hgood : Placebo.chicagoRow chiPre chiRatioVal ∈
      Placebo.goodFilter df (chiPre * mult) := by
    simp only [Placebo.goodFilter, List.mem_filter, decide_eq_true_eq]
    exact ⟨hchimem, hthr⟩
  have hlen : 0 < (Placebo.goodFilter df (chiPre * mult)).length :=
    List.length_pos.mpr (List.ne_nil_of_mem hgood)
  have hmemf : Placebo.chicagoRow chiPre chiRatioVal ∈
      (Placebo.goodFilter df (chiPre * mult)).filter
        (fun r => decide (chiRatioVal ≤ r.ratioQ)) := by
    simp only [List.mem_filter, decide_eq_true_eq]
    exact ⟨hgood, le_refl _⟩
  have hext : 0 < Placebo.nExtreme (Placebo.goodFilter df (chiPre * mult)) chiRatioVal := by
    unfold Placebo.nExtreme
    exact List.length_pos.mpr (List.ne_nil_of_mem hmemf)
  refine ⟨hgood, hlen, ?_, ?_⟩
  · unfold Placebo.histPval
    apply div_pos
    · exact_mod_cast hext
    · exact_mod_cast hlen
  · unfold Placebo.histPval
    rw [div_le_one (by exact_mod_cast hlen)]
    have : Placebo.nExtreme (Placebo.goodFilter df (chiPre * mult)) chiRatioVal ≤
        (Placebo.goodFilter df (chiPre * mult)).length :=
      List.length_filter_le _ _
    exact_mod_cast this

/-- C9 witness: the theorem applied at a concrete input. -/
theorem c9_witness :
    (1 < 2) ∧ (0 < (1 : ℚ)) ∧
      (Placebo.chicagoRow 1 0 ∈
          Placebo.goodFilter (Placebo.buildDf [] 1 0) (1 * (2 : ℕ)) ∧
        0 < (Placebo.goodFilter (Placebo.buildDf [] 1 0) (1 * (2 : ℕ))).length ∧
        0 < Placebo.histPval
            (Placebo.goodFilter (Placebo.buildDf [] 1 0) (1 * (2 : ℕ))) 0 ∧
        Placebo.histPval
            (Placebo.goodFilter (Placebo.buildDf [] 1 0) (1 * (2 : ℕ))) 0 ≤ 1) :=
  ⟨by decide, by norm_num,
    c9_histogram_pvalue_positive_and_le_one [] 1 0 2 (by decide) (by norm_num)⟩

/-- C6: the pre-period RMSPE computed by `get_chicago_stats` is the square
root of the mean squared gap over periods with `_time < 10`, the post-period
RMSPE the same over `_time >= 10`, the reported ratio is post-RMSPE over
pre-RMSPE, and a unit enters the good-pre-fit set exactly when its pre-RMSPE
is strictly below the threshold multiplier times Chicago's pre-RMSPE. -/
theorem c6_rmspe_definitions_and_good_set (rs : List Placebo.SynthRow)
    (hpre : Placebo.preRows rs ≠ []) (hpost : Placebo.postRows rs ≠ [])
    (df : List Placebo.PlaceboRow) (mult chiPre : ℚ) (r : Placebo.PlaceboRow) :
    Real.sqrt (Placebo.preMspe rs) = Real.sqrt (Placebo.specPreMspe rs) ∧
      Real.sqrt (Placebo.postMspe rs) = Real.sqrt (Placebo.specPostMspe rs) ∧
      Real.sqrt (Placebo.postMspe rs) / Real.sqrt (Placebo.preMspe rs)
        = Real.sqrt (Placebo.specPostMspe rs) / Real.sqrt (Placebo.specPreMspe rs) ∧
      (r ∈ Placebo.goodFilter df (chiPre * mult) ↔
        r ∈ df ∧ r.pre_rmspe < chiPre * mult) := by
  have h1 : Placebo.preMspe rs = Placebo.specPreMspe rs := by
    show Placebo.qmean _ = _
    unfold Placebo.qmean Placebo.specPreMspe
    rw [List.length_map]
    rfl
  have h2 : Placebo.postMspe rs = Placebo.specPostMspe rs := by
    show Placebo.qmean _ = _
    unfold Placebo.qmean Placebo.specPostMspe
    rw [List.length_map]
    rfl
  refine ⟨by rw [h1], by rw [h2], by rw [h1, h2], ?_⟩
  simp [Placebo.goodFilter, List.mem_filter]

/-- C6 witness: the theorem applied at a concrete input with one pre-period
and one post-period row. -/
theorem c6_witness :
    (Placebo.preRows [⟨0, 1, 0⟩, ⟨10, 2, 0⟩] ≠ []) ∧
      (Placebo.postRows [⟨0, 1, 0⟩, ⟨10, 2, 0⟩] ≠ []) ∧
      (Real.sqrt (Placebo.preMspe [⟨0, 1, 0⟩, ⟨10, 2, 0⟩])
          = Real.sqrt (Placebo.specPreMspe [⟨0, 1, 0⟩, ⟨10, 2, 0⟩]) ∧
        Real.sqrt (Placebo.postMspe [⟨0, 1, 0⟩, ⟨10, 2, 0⟩])
          = Real.sqrt (Placebo.specPostMspe [⟨0, 1, 0⟩, ⟨10, 2, 0⟩]) ∧
        Real.sqrt (Placebo.postMspe [⟨0, 1, 0⟩, ⟨10, 2, 0⟩]) /
              Real.sqrt (Placebo.preMspe [⟨0, 1, 0⟩, ⟨10, 2, 0⟩])
          = Real.sqrt (Placebo.specPostMspe [⟨0, 1, 0⟩, ⟨10, 2, 0⟩]) /
              Real.sqrt (Placebo.specPreMspe [⟨0, 1, 0⟩, ⟨10, 2, 0⟩]) ∧
        (Placebo.chicagoRow 1 2 ∈ Placebo.goodFilter [Placebo.chicagoRow 1 2] (1 * 5) ↔
          Placebo.chicagoRow 1 2 ∈ [Placebo.chicagoRow 1 2] ∧
            (Placebo.chicagoRow 1 2).pre_rmspe < 1 * 5)) :=
  ⟨by decide, by decide,
    c6_rmspe_definitions_and_good_set [⟨0, 1, 0⟩, ⟨10, 2, 0⟩] (by decide) (by decide)
      [Placebo.chicagoRow 1 2] 5 1 (Placebo.chicagoRow 1 2)⟩

/-- C1: on any fitting dataset, a weight vector solves the problem the script
hands to the constrained optimizer (objective
`np.mean((y_treated - X_donors @ w)**2)`, bounds `[0,1]`, constraint
`sum(w) - 1 = 0`) exactly when it minimizes the mean of squared differences
between the treated pre-period series and the donor design matrix times the
weights over all weight vectors with entries in `[0, 1]` summing to exactly
one.  The `scipy.optimize.minimize` call is embedded by its contract of
returning such a solution. -/
theorem c1_weight_fitting_minimizes_claimed_problem {T n : ℕ}
    (y : Fin T → ℚ) (X : Fin T → Fin n → ℚ) (w : Fin n → ℚ) :
    SynthControl.SolvesFitProblem y X w ↔
      (SynthControl.specConvexWeights w ∧
        ∀ v : Fin n → ℚ, SynthControl.specConvexWeights v →
          SynthControl.specMeanSqError y X w ≤ SynthControl.specMeanSqError y X v) := by
  have hfeas : ∀ u : Fin n → ℚ,
      SynthControl.codeFeasible u ↔ SynthControl.specConvexWeights u := by
    intro u
    unfold SynthControl.codeFeasible SynthControl.specConvexWeights
    rw [sub_eq_zero]
    simp [Set.mem_Icc]
  have hobj : ∀ u : Fin n → ℚ,
      SynthControl.objective y X u = SynthControl.specMeanSqError y X u := fun u => rfl
  unfold SynthControl.SolvesFitProblem
  rw [hfeas]
  constructor
  · rintro ⟨hw, hmin⟩
    exact ⟨hw, fun v hv => by rw [← hobj, ← hobj]; exact hmin v ((hfeas v).mpr hv)⟩
  · rintro ⟨hw, hmin⟩
    exact ⟨hw, fun v hv => by rw [hobj, hobj]; exact hmin v ((hfeas v).mp hv)⟩

/-- C4 counterexample: with the feasible fitted weights `(199/200, 1/200)`
over two donors, the weights the script keeps for the full-period synthetic
series (those above 1%) sum to `199/200`, not `1`, and on donor outcomes all
equal to `1` the plotted full-period synthetic value is `199/200`, which no
convex combination of those outcomes can produce; so the restricted series is
not a convex combination of donor outcomes. -/
theorem c4_counterexample_restricted_weights_not_convex :
    (∀ x ∈ ([199 / 200, 1 / 200] : List ℚ), 0 ≤ x ∧ x ≤ 1) ∧
      ([199 / 200, 1 / 200] : List ℚ).sum = 1 ∧
      ((SynthControl.filterTop ["100", "200"] [199 / 200, 1 / 200]).map Prod.snd).sum ≠ 1 ∧
      SynthControl.synthVal (SynthControl.filterTop ["100", "200"] [199 / 200, 1 / 200])
          (fun _ => 1) ≠ 1 := by
  refine ⟨?_, by norm_num, ?_, ?_⟩
  · intro x hx
    simp only [List.mem_cons, List.not_mem_nil, or_false] at hx
    rcases hx with rfl | rfl <;> norm_num
  · show ((List.filter _ _).map Prod.snd).sum ≠ 1
    norm_num [SynthControl.filterTop, List.filter]
  · show (List.map _ (List.filter _ _)).sum ≠ 1
    norm_num [SynthControl.filterTop, SynthControl.synthVal, List.filter]

/-- C4 amended: every full-period synthetic value is a weighted combination
of donor outcomes with non-negative weights (each above 1%) on donors
distinct from the treated ZIP3 `'606'` (donor selection filters out `'606'`
and non-3-digit codes), but after the above-1% restriction the weights sum to
`1` minus the total weight on donors at or below 1% — hence at most `1` and
not exactly `1` in general; only the unrestricted fitted weight vector is a
convex combination. -/
theorem c4_amended_restricted_series_subconvex (donors : List String) (w : List ℚ)
    (hdon : ∀ d ∈ donors, d ≠ "606")
    (hw : ∀ x ∈ w, 0 ≤ x ∧ x ≤ 1) (hsum : w.sum = 1)
    (hlen : w.length = donors.length) :
    (∀ (counts : List (String × ℚ)) (cs sw : ℚ) (d : String),
        d ∈ SynthControl.selectDonors counts cs sw →
          d ≠ "606" ∧ SynthControl.isValidZip3 d = true) ∧
      (∀ p ∈ SynthControl.filterTop donors w,
        p.1 ≠ "606" ∧ (1 : ℚ) / 100 < p.2 ∧ 0 ≤ p.2) ∧
      ((SynthControl.filterTop donors w).map Prod.snd).sum
        = 1 - (((donors.zip w).filter
            (fun p => !(decide ((1 : ℚ) / 100 < p.2)))).map Prod.snd).sum ∧
      ((SynthControl.filterTop donors w).map Prod.snd).sum ≤ 1 := by
  have hsel : ∀ (counts : List (String × ℚ)) (cs sw : ℚ) (d : String),
      d ∈ SynthControl.selectDonors counts cs sw →
        d ≠ "606" ∧ SynthControl.isValidZip3 d = true := by
    intro counts cs sw d hd
    unfold SynthControl.selectDonors at hd
    simp only [List.mem_map, List.mem_filter] at hd
    obtain ⟨q, ⟨⟨_, hne⟩, hzip⟩, hq⟩ := hd
    subst hq
    rw [bne_iff_ne] at hne
    exact ⟨by simpa [SynthControl.TREATED_ZIP] using hne, hzip⟩
  have hsplit := sum_filter_add_sum_filter_not (donors.zip w)
    (fun p => decide ((1 : ℚ) / 100 < p.2)) Prod.snd
  have hzipsum : ((donors.zip w).map Prod.snd).sum = 1 := by
    rw [List.map_snd_zip donors w (le_of_eq hlen), hsum]
  have hsmall_nonneg :
      0 ≤ (((donors.zip w).filter (fun p => !(decide ((1 : ℚ) / 100 < p.2)))).map
        Prod.snd).sum := by
    apply List.sum_nonneg
    intro x hx
    simp only [List.mem_map] at hx
    obtain ⟨p, hp, hpx⟩ := hx
    have hpz := (List.mem_filter.mp hp).1
    have := (List.of_mem_zip hpz).2
    subst hpx
    exact (hw _ this).1
  refine ⟨hsel, ?_, ?_, ?_⟩
  · intro p hp
    have hp' := List.mem_filter.mp hp
    have hd := (List.of_mem_zip hp'.1).1
    have hwmem := (List.of_mem_zip hp'.1).2
    have h2 : (1 : ℚ) / 100 < p.2 := by simpa using hp'.2
    exact ⟨hdon p.1 hd, h2, (hw _ hwmem).1⟩
  · unfold SynthControl.filterTop
    linarith [hsplit, hzipsum]
  · unfold SynthControl.filterTop
    linarith [hsplit, hzipsum, hsmall_nonneg]

/-- C4 amended witness: the theorem applied at a concrete two-donor input. -/
theorem c4_amended_witness :
    (∀ d ∈ ["100", "200"], d ≠ "606") ∧
      (∀ x ∈ ([1, 0] : List ℚ), 0 ≤ x ∧ x ≤ 1) ∧
      ([1, 0] : List ℚ).sum = 1 ∧
      ([1, 0] : List ℚ).length = ["100", "200"].length ∧
      ((∀ (counts : List (String × ℚ)) (cs sw : ℚ) (d : String),
          d ∈ SynthControl.selectDonors counts cs sw →
            d ≠ "606" ∧ SynthControl.isValidZip3 d = true) ∧
        (∀ p ∈ SynthControl.filterTop ["100", "200"] [1, 0],
          p.1 ≠ "606" ∧ (1 : ℚ) / 100 < p.2 ∧ 0 ≤ p.2) ∧
        ((SynthControl.filterTop ["100", "200"] [1, 0]).map Prod.snd).sum
          = 1 - (((["100", "200"].zip ([1, 0] : List ℚ)).filter
              (fun p => !(decide ((1 : ℚ) / 100 < p.2)))).map Prod.snd).sum ∧
        ((SynthControl.filterTop ["100", "200"] [1, 0]).map Prod.snd).sum ≤ 1) :=
  ⟨by decide, by norm_num, by norm_num, by decide,
    c4_amended_restricted_series_subconvex ["100", "200"] [1, 0] (by decide)
      (by norm_num) (by norm_num) (by decide)⟩

theorem mem_applyAmountFilter {af : LoadData.AmountFilter} {l : List LoadData.TransRow}
    {t : LoadData.TransRow} (h : t ∈ LoadData.applyAmountFilter af l) : t ∈ l := by
  cases af <;> simp only [LoadData.applyAmountFilter] at h <;>
    first
      | exact h
      | exact (List.mem_filter.mp h).1

/-- C10 counterexample: with the panel filter on, the panel cache empty, a
2023 transactions file present and the panel file present but the card-info
file missing, `load_transactions` still raises `FileNotFoundError` (from
`pd.read_parquet` on the card-info table), so the raise is NOT equivalent to
the panel file being absent, and an existing panel file does not guarantee
the call completes. -/
theorem c10_counterexample_card_info_missing :
    LoadData.loadTransactions
        ⟨fun y => if y = 2023 then some [] else none, some [], none⟩
        ["chatgpt", "openai"] [2023, 2024, 2025] .allAmounts false 5 true
      = .error .fileNotFound ∧
    (⟨fun y => if y = 2023 then some [] else none, some [], none⟩ :
        LoadData.FileSys).panelFile.isSome = true := by
  exact ⟨rfl, rfl⟩

/-- C10 amended: with the panel filter enabled and the panel cache empty,
PROVIDED at least one yearly transactions file exists and the card-info file
exists, `load_transactions` raises `FileNotFoundError` exactly when
`panel_cardlinkids.parquet` is absent, and when the panel file is present the
call completes and returns the filtered dataframe (in particular every
returned transaction's cardid belongs to a non-USA1-debit card whose
cardlinkid is in the panel). -/
theorem c10_amended_panel_error_iff_missing (fs : LoadData.FileSys)
    (services : List String) (years : List Nat) (af : LoadData.AmountFilter)
    (utm : Bool) (topN : Nat) (yr : Nat) (dfy : List LoadData.TransRow)
    (ci : List Panelize.CardInfoRow) (hyr : yr ∈ years)
    (hfile : fs.transFiles yr = some dfy) (hci : fs.cardInfoFile = some ci) :
    (LoadData.loadTransactions fs services years af utm topN true
        = .error .fileNotFound ↔ fs.panelFile = none) ∧
      ∀ p, fs.panelFile = some p →
        ∃ out, LoadData.loadTransactions fs services years af utm topN true
            = .ok out ∧
          ∀ t ∈ out, t.cardid ∈
            ((ci.filter (fun r => !(Panelize.usa1Debit r))).filter
              (fun r => p.contains r.cardlinkid)).map (fun r => r.cardid) := by
  obtain ⟨tf, pf, cif⟩ := fs
  simp only at hfile hci ⊢
  subst hci
  have hmem : dfy ∈ years.filterMap tf := List.mem_filterMap.mpr ⟨yr, hyr, hfile⟩
  have hne : ¬(years.filterMap tf).isEmpty :=
    fun h => List.ne_nil_of_mem hmem (List.isEmpty_iff.mp h)
  cases pf with
  | none =>
    have herr : LoadData.loadTransactions ⟨tf, none, some ci⟩ services years af utm topN true
        = .error .fileNotFound := by
      unfold LoadData.loadTransactions LoadData.getPanelCardids
      simp [hne, bind, Except.bind, pure, Except.pure, throw, throwThe, MonadExceptOf.throw]
    exact ⟨by simp [herr], fun p hp => by cases hp⟩
  | some p =>
    have hok : LoadData.loadTransactions ⟨tf, some p, some ci⟩ services years af utm topN true
        = .ok (LoadData.applyAmountFilter af
            (let trans := ((years.filterMap tf).flatten.filter
                (fun t => services.contains t.service.toLower)).filter
              (fun t => (((ci.filter (fun r => !(Panelize.usa1Debit r))).filter
                  (fun r => p.contains r.cardlinkid)).map
                    (fun r => r.cardid)).contains t.cardid)
             if utm then
               trans.filter (fun t => (LoadData.topNMerchids trans topN).contains t.merchid)
             else trans)) := by
      unfold LoadData.loadTransactions LoadData.getPanelCardids
      simp [hne, bind, Except.bind, pure, Except.pure]
    refine ⟨?_, fun q hq => ?_⟩
    · rw [hok]
      constructor
      · intro h; cases h
      · intro h; cases h
    · injection hq with hq
      subst hq
      refine ⟨_, hok, fun t ht => ?_⟩
      have h1 := mem_applyAmountFilter ht
      have h2 : t ∈ ((years.filterMap tf).flatten.filter
          (fun t => services.contains t.service.toLower)).filter
            (fun t => (((ci.filter (fun r => !(Panelize.usa1Debit r))).filter
                (fun r => p.contains r.cardlinkid)).map
                  (fun r => r.cardid)).contains t.cardid) := by
        by_cases hu : utm
        · simp only [hu, if_true] at h1
          exact (List.mem_filter.mp h1).1
        · simpa [hu] using h1
      have h3 := (List.mem_filter.mp h2).2
      rw [List.contains_iff_exists_mem_beq] at h3
      obtain ⟨a, ha, hbeq⟩ := h3
      rw [beq_iff_eq] at hbeq
      rwa [hbeq]

/-- C10 amended witness: the theorem applied at a concrete file system with
all three files present. -/
theorem c10_amended_witness :
    (2023 ∈ [2023]) ∧
      ((⟨fun y => if y = 2023 then some [] else none, some [], some []⟩ :
          LoadData.FileSys).transFiles 2023 = some []) ∧
      ((⟨fun y => if y = 2023 then some [] else none, some [], some []⟩ :
          LoadData.FileSys).cardInfoFile = some []) ∧
      ((LoadData.loadTransactions
            ⟨fun y => if y = 2023 then some [] else none, some [], some []⟩
            ["chatgpt"] [2023] .allAmounts false 5 true
          = .error .fileNotFound ↔
          (⟨fun y => if y = 2023 then some [] else none, some [], some []⟩ :
              LoadData.FileSys).panelFile = none) ∧
        ∀ p, (⟨fun y => if y = 2023 then some [] else none, some [], some []⟩ :
            LoadData.FileSys).panelFile = some p →
          ∃ out, LoadData.loadTransactions
                ⟨fun y => if y = 2023 then some [] else none, some [], some []⟩
                ["chatgpt"] [2023] .allAmounts false 5 true
              = .ok out ∧
            ∀ t ∈ out, t.cardid ∈
              ((([] : List Panelize.CardInfoRow).filter
                  (fun r => !(Panelize.usa1Debit r))).filter
                (fun r => p.contains r.cardlinkid)).map (fun r => r.cardid)) :=
  ⟨by decide, rfl, rfl,
    c10_amended_panel_error_iff_missing
      ⟨fun y => if y = 2023 then some [] else none, some [], some []⟩
      ["chatgpt"] [2023] .allAmounts false 5 2023 [] [] (by decide) rfl rfl⟩

theorem daysInMonth_pos (y m : Nat) : 1 ≤ Calendar.daysInMonth y m := by
  unfold Calendar.daysInMonth
  split_ifs <;> omega

theorem months_start_le_end : ∀ mo ∈ Zip3.months, mo.s ≤ mo.e := by
  intro mo hmo
  unfold Zip3.months at hmo
  obtain ⟨p, _, hp⟩ := List.mem_map.mp hmo
  subst hp
  have := daysInMonth_pos p.1 p.2
  unfold Zip3.monthIv
  simp only
  omega

theorem pickModal_go_spec (rows : List Zip3.AddrRow) (mo : Zip3.MonthIv) :
    ∀ (cands : List String) (b : String),
      ∃ z, cands.foldl
          (fun best z =>
            match best with
            | none => some z
            | some b =>
              if Zip3.totalDays rows mo b < Zip3.totalDays rows mo z then some z
              else some b)
          (some b) = some z ∧
        (z = b ∨ z ∈ cands) ∧
        Zip3.totalDays rows mo b ≤ Zip3.totalDays rows mo z ∧
        ∀ y ∈ cands, Zip3.totalDays rows mo y ≤ Zip3.totalDays rows mo z := by
  intro cands
  induction cands with
  | nil => exact fun b => ⟨b, rfl, Or.inl rfl, le_refl _, by simp⟩
  | cons x xs ih =>
    intro b
    by_cases hbx : Zip3.totalDays rows mo b < Zip3.totalDays rows mo x
    · obtain ⟨z, hz, hmem, hle, hall⟩ := ih x
      refine ⟨z, by simpa [hbx] using hz, ?_, le_of_lt (lt_of_lt_of_le hbx hle), ?_⟩
      · rcases hmem with rfl | h
        · exact Or.inr (List.mem_cons_self _ _)
        · exact Or.inr (List.mem_cons_of_mem _ h)
      · intro y hy
        rcases List.mem_cons.mp hy with rfl | h
        · exact hle
        · exact hall y h
    · obtain ⟨z, hz, hmem, hle, hall⟩ := ih b
      refine ⟨z, by simpa [hbx] using hz, ?_, hle, ?_⟩
      · rcases hmem with rfl | h
        · exact Or.inl rfl
        · exact Or.inr (List.mem_cons_of_mem _ h)
      · intro y hy
        rcases List.mem_cons.mp hy with rfl | h
        · exact le_trans (le_of_not_lt hbx) hle
        · exact hall y h

theorem pickModal_some_spec {rows : List Zip3.AddrRow} {mo : Zip3.MonthIv}
    {cands : List String} {z : String}
    (h : Zip3.pickModal rows mo cands = some z) :
    z ∈ cands ∧ ∀ y ∈ cands, Zip3.totalDays rows mo y ≤ Zip3.totalDays rows mo z := by
  cases cands with
  | nil => cases h
  | cons x xs =>
    obtain ⟨z', hz', hmem, hle, hall⟩ := pickModal_go_spec rows mo xs x
    have hzz : z' = z := by
      have : Zip3.pickModal rows mo (x :: xs) = some z' := hz'
      rw [h] at this
      exact (Option.some_injective _ this.symm)
    subst hzz
    refine ⟨?_, ?_⟩
    · rcases hmem with rfl | h'
      · exact List.mem_cons_self _ _
      · exact List.mem_cons_of_mem _ h'
    · intro y hy
      rcases List.mem_cons.mp hy with rfl | h'
      · exact hle
      · exact hall y h'

theorem pickModal_eq_none_iff (rows : List Zip3.AddrRow) (mo : Zip3.MonthIv)
    (cands : List String) :
    Zip3.pickModal rows mo cands = none ↔ cands = [] := by
  cases cands with
  | nil => simp [Zip3.pickModal]
  | cons x xs =>
    obtain ⟨z', hz', _, _, _⟩ := pickModal_go_spec rows mo xs x
    have : Zip3.pickModal rows mo (x :: xs) = some z' := hz'
    simp [this]

/-- C5 counterexample: the cardid `c` has exactly one address row, valid from
day ordinal 14 (2022-01-15) to day ordinal 40 (2022-02-10).  The multi-row
modal computation emits a January 2022 record for it (the row overlaps
January), but the fast single-row path does not (January's first day is not
inside the validity interval), so the two paths do NOT produce the same set
of records on this cardid's data. -/
theorem c5_counterexample_single_path_drops_overlap_month :
    (Zip3.rowsOf [⟨"c", "606", 14, 40⟩] "c").length = 1 ∧
      ("c", (2022, 1), "606") ∈
        Zip3.processMultiRow [⟨"c", "606", 14, 40⟩] ["c"] ∧
      ("c", (2022, 1), "606") ∉
        Zip3.processSingleRow [⟨"c", "606", 14, 40⟩] ["c"] := by decide

/-- C5 amended: for a cardid with exactly one address row the fast path emits
a record exactly for the months whose FIRST DAY lies inside the validity
interval, while the multi-row modal computation emits one exactly for the
months the interval merely overlaps; the fast path's records are a subset of
the modal computation's, and the two differ precisely on months the interval
overlaps without covering their first day — the split is therefore not purely
a cost optimization. -/
theorem c5_amended_single_path_refines_multi (tv : List Zip3.AddrRow) (c : String)
    (r : Zip3.AddrRow) (hr : Zip3.rowsOf tv c = [r]) :
    (∀ ym z, ((c, ym, z) ∈ Zip3.processSingleRow tv [c] ↔
        z = r.zip ∧ ∃ mo ∈ Zip3.months, mo.ym = ym ∧
          r.valid_begin ≤ mo.s ∧ mo.s ≤ r.valid_end)) ∧
      (∀ ym z, ((c, ym, z) ∈ Zip3.processMultiRow tv [c] ↔
        z = r.zip ∧ ∃ mo ∈ Zip3.months, mo.ym = ym ∧ Zip3.overlaps r mo = true)) ∧
      ∀ rec ∈ Zip3.processSingleRow tv [c], rec ∈ Zip3.processMultiRow tv [c] := by
  have hrc : r.cardid = c := by
    have : r ∈ Zip3.rowsOf tv c := by rw [hr]; exact List.mem_cons_self _ _
    have := List.mem_filter.mp this
    exact beq_iff_eq.mp this.2
  have hfeq : tv.filter (fun x => ([c] : List String).contains x.cardid) = [r] := by
    rw [← hr]
    unfold Zip3.rowsOf
    apply List.filter_congr
    intro a _
    simp only [List.contains, List.elem_cons, List.elem_nil, Bool.or_false]
    cases a.cardid == c <;> rfl
  have hsingle : ∀ ym z, ((c, ym, z) ∈ Zip3.processSingleRow tv [c] ↔
      z = r.zip ∧ ∃ mo ∈ Zip3.months, mo.ym = ym ∧
        r.valid_begin ≤ mo.s ∧ mo.s ≤ r.valid_end) := by
    intro ym z
    unfold Zip3.processSingleRow
    rw [hfeq]
    simp only [List.flatMap_cons, List.flatMap_nil, List.append_nil, List.mem_map,
      List.mem_filter, Bool.and_eq_true, decide_eq_true_eq, Prod.mk.injEq]
    constructor
    · rintro ⟨mo, ⟨hmo, h1, h2⟩, _, hym, hz⟩
      exact ⟨hz.symm, mo, hmo, hym, h1, h2⟩
    · rintro ⟨hz, mo, hmo, hym, h1, h2⟩
      exact ⟨mo, ⟨hmo, h1, h2⟩, hrc, hym, hz.symm⟩
  have hmulti_elt : ∀ mo, ((Zip3.pickModal (Zip3.rowsOf tv c) mo
        (Zip3.candZips (Zip3.rowsOf tv c) mo)).map (fun z => (c, mo.ym, z)))
      = if Zip3.overlaps r mo then some (c, mo.ym, r.zip) else none := by
    intro mo
    rw [hr]
    by_cases hov : Zip3.overlaps r mo
    · have hc : Zip3.candZips [r] mo = [r.zip] := by
        simp [Zip3.candZips, List.filter_cons, hov]
      rw [hc, hov]
      rfl
    · have hc : Zip3.candZips [r] mo = [] := by
        simp [Zip3.candZips, List.filter_cons, hov]
      rw [hc]
      simp [Zip3.pickModal, hov]
  have hmulti : ∀ ym z, ((c, ym, z) ∈ Zip3.processMultiRow tv [c] ↔
      z = r.zip ∧ ∃ mo ∈ Zip3.months, mo.ym = ym ∧ Zip3.overlaps r mo = true) := by
    intro ym z
    unfold Zip3.processMultiRow
    simp only [List.flatMap_cons, List.flatMap_nil, List.append_nil, List.mem_filterMap]
    constructor
    · rintro ⟨mo, hmo, hsome⟩
      rw [hmulti_elt mo] at hsome
      by_cases hov : Zip3.overlaps r mo
      · rw [if_pos hov] at hsome
        injection hsome with h
        have hym : mo.ym = ym := congrArg (fun p => p.2.1) h
        have hz : r.zip = z := congrArg (fun p => p.2.2) h
        exact ⟨hz.symm, mo, hmo, hym, hov⟩
      · rw [if_neg hov] at hsome
        cases hsome
    · rintro ⟨hz, mo, hmo, hym, hov⟩
      refine ⟨mo, hmo, ?_⟩
      rw [hmulti_elt mo, if_pos hov, hym, hz]
  refine ⟨hsingle, hmulti, ?_⟩
  intro rec hrec
  obtain ⟨c', ym, z⟩ := rec
  have hc' : c' = c := by
    unfold Zip3.processSingleRow at hrec
    rw [hfeq] at hrec
    simp only [List.flatMap_cons, List.flatMap_nil, List.append_nil,
      List.mem_map] at hrec
    obtain ⟨mo, _, heq⟩ := hrec
    have h1 := congrArg Prod.fst heq
    simp only [hrc] at h1
    exact h1.symm
  subst hc'
  obtain ⟨hz, mo, hmo, hym, h1, h2⟩ := (hsingle ym z).mp hrec
  refine (hmulti ym z).mpr ⟨hz, mo, hmo, hym, ?_⟩
  have hse := months_start_le_end mo hmo
  unfold Zip3.overlaps
  simp only [Bool.and_eq_true, decide_eq_true_eq]
  exact ⟨le_trans h1 hse, h2⟩

/-- C5 amended witness: the theorem applied at a concrete one-row input. -/
theorem c5_amended_witness :
    (Zip3.rowsOf [⟨"c", "606", 14, 40⟩] "c" = [⟨"c", "606", 14, 40⟩]) ∧
      ((∀ ym z, ((("c" : String), ym, z) ∈
            Zip3.processSingleRow [⟨"c", "606", 14, 40⟩] ["c"] ↔
          z = (⟨"c", "606", 14, 40⟩ : Zip3.AddrRow).zip ∧
            ∃ mo ∈ Zip3.months, mo.ym = ym ∧
              (⟨"c", "606", 14, 40⟩ : Zip3.AddrRow).valid_begin ≤ mo.s ∧
                mo.s ≤ (⟨"c", "606", 14, 40⟩ : Zip3.AddrRow).valid_end)) ∧
        (∀ ym z, ((("c" : String), ym, z) ∈
            Zip3.processMultiRow [⟨"c", "606", 14, 40⟩] ["c"] ↔
          z = (⟨"c", "606", 14, 40⟩ : Zip3.AddrRow).zip ∧
            ∃ mo ∈ Zip3.months, mo.ym = ym ∧
              Zip3.overlaps ⟨"c", "606", 14, 40⟩ mo = true)) ∧
        ∀ rec ∈ Zip3.processSingleRow [⟨"c", "606", 14, 40⟩] ["c"],
          rec ∈ Zip3.processMultiRow [⟨"c", "606", 14, 40⟩] ["c"]) :=
  ⟨by decide,
    c5_amended_single_path_refines_multi [⟨"c", "606", 14, 40⟩] "c"
      ⟨"c", "606", 14, 40⟩ (by decide)⟩

/-- C3: for a cardid with more than one address row, a `(cardid, month)`
record is emitted by the modal computation exactly when some address row's
validity interval overlaps the month (months Jan 2022 – Jul 2025), and the
recorded ZIP3 attains the maximal total of overlap days among the ZIP3s with
an overlapping row, where each overlapping row contributes
`min(valid_end, month_end) - max(valid_begin, month_start) + 1` days summed
per ZIP3. -/
theorem c3_modal_zip3_per_card_month (tv : List Zip3.AddrRow) (c : String)
    (hmulti : 1 < (Zip3.rowsOf tv c).length) :
    (∀ ym, (∃ z, (c, ym, z) ∈ Zip3.processMultiRow tv (Zip3.multiCardids tv)) ↔
        ∃ mo ∈ Zip3.months, mo.ym = ym ∧
          ∃ r ∈ Zip3.rowsOf tv c, Zip3.overlaps r mo = true) ∧
      (∀ ym z, (c, ym, z) ∈ Zip3.processMultiRow tv (Zip3.multiCardids tv) →
        ∃ mo ∈ Zip3.months, mo.ym = ym ∧
          z ∈ Zip3.candZips (Zip3.rowsOf tv c) mo ∧
          ∀ z' ∈ Zip3.candZips (Zip3.rowsOf tv c) mo,
            Zip3.totalDays (Zip3.rowsOf tv c) mo z'
              ≤ Zip3.totalDays (Zip3.rowsOf tv c) mo z) ∧
      ∀ mo z, Zip3.totalDays (Zip3.rowsOf tv c) mo z
        = (((Zip3.rowsOf tv c).filter (fun r =>
              (decide (r.valid_begin ≤ mo.e) && decide (mo.s ≤ r.valid_end)) &&
                (r.zip == z))).map
            (fun r => min r.valid_end mo.e - max r.valid_begin mo.s + 1)).sum := by
  have hrows_ne : Zip3.rowsOf tv c ≠ [] := by
    intro h
    rw [h] at hmulti
    simp at hmulti
  have hcmem : c ∈ Zip3.multiCardids tv := by
    obtain ⟨r, hr⟩ := List.exists_mem_of_ne_nil _ hrows_ne
    have hrtv := List.mem_filter.mp hr
    unfold Zip3.multiCardids
    rw [List.mem_filter]
    refine ⟨List.mem_dedup.mpr ?_, by simpa using hmulti⟩
    exact List.mem_map.mpr ⟨r, hrtv.1, beq_iff_eq.mp hrtv.2⟩
  have hmem_iff : ∀ ym z, (c, ym, z) ∈ Zip3.processMultiRow tv (Zip3.multiCardids tv) ↔
      ∃ mo ∈ Zip3.months, mo.ym = ym ∧
        Zip3.pickModal (Zip3.rowsOf tv c) mo (Zip3.candZips (Zip3.rowsOf tv c) mo)
          = some z := by
    intro ym z
    unfold Zip3.processMultiRow
    rw [List.mem_flatMap]
    constructor
    · rintro ⟨c', _, hc'⟩
      rw [List.mem_filterMap] at hc'
      obtain ⟨mo, hmo, hsome⟩ := hc'
      rw [Option.map_eq_some'] at hsome
      obtain ⟨z0, hz0, htup⟩ := hsome
      have h1 : c' = c := congrArg (fun p => p.1) htup
      have h2 : mo.ym = ym := congrArg (fun p => p.2.1) htup
      have h3 : z0 = z := congrArg (fun p => p.2.2) htup
      subst h1; subst h3
      exact ⟨mo, hmo, h2, hz0⟩
    · rintro ⟨mo, hmo, hym, hpick⟩
      refine ⟨c, hcmem, ?_⟩
      rw [List.mem_filterMap]
      exact ⟨mo, hmo, by rw [Option.map_eq_some']; exact ⟨z, hpick, by rw [hym]⟩⟩
  refine ⟨?_, ?_, ?_⟩
  · intro ym
    constructor
    · rintro ⟨z, hz⟩
      obtain ⟨mo, hmo, hym, hpick⟩ := (hmem_iff ym z).mp hz
      have hcand := (pickModal_some_spec hpick).1
      unfold Zip3.candZips at hcand
      rw [List.mem_dedup, List.mem_map] at hcand
      obtain ⟨r, hrf, _⟩ := hcand
      have := List.mem_filter.mp hrf
      exact ⟨mo, hmo, hym, r, this.1, this.2⟩
    · rintro ⟨mo, hmo, hym, r, hr, hov⟩
      have hcand_ne : Zip3.candZips (Zip3.rowsOf tv c) mo ≠ [] := by
        intro h
        have : r.zip ∈ Zip3.candZips (Zip3.rowsOf tv c) mo := by
          unfold Zip3.candZips
          rw [List.mem_dedup, List.mem_map]
          exact ⟨r, List.mem_filter.mpr ⟨hr, hov⟩, rfl⟩
        rw [h] at this
        cases this
      obtain ⟨z0, hz0⟩ := Option.ne_none_iff_exists'.mp
        (fun h => hcand_ne ((pickModal_eq_none_iff _ _ _).mp h))
      exact ⟨z0, (hmem_iff ym z0).mpr ⟨mo, hmo, hym, hz0⟩⟩
  · intro ym z hz
    obtain ⟨mo, hmo, hym, hpick⟩ := (hmem_iff ym z).mp hz
    have hspec := pickModal_some_spec hpick
    exact ⟨mo, hmo, hym, hspec.1, hspec.2⟩
  · intro mo z
    unfold Zip3.totalDays
    rw [List.filter_filter]
    have hpred : List.filter (fun a : Zip3.AddrRow => a.zip == z && Zip3.overlaps a mo)
        (Zip3.rowsOf tv c)
        = List.filter (fun r =>
            (decide (r.valid_begin ≤ mo.e) && decide (mo.s ≤ r.valid_end)) &&
              (r.zip == z)) (Zip3.rowsOf tv c) := by
      apply List.filter_congr
      intro r _
      unfold Zip3.overlaps
      rw [Bool.and_comm]
    rw [hpred]
    rfl

/-- C3 witness: the theorem applied at a concrete two-row cardid. -/
theorem c3_witness :
    (1 < (Zip3.rowsOf [⟨"c", "100", 0, 30⟩, ⟨"c", "200", 10, 40⟩] "c").length) ∧
      ((∀ ym, (∃ z, (("c" : String), ym, z) ∈
            Zip3.processMultiRow [⟨"c", "100", 0, 30⟩, ⟨"c", "200", 10, 40⟩]
              (Zip3.multiCardids [⟨"c", "100", 0, 30⟩, ⟨"c", "200", 10, 40⟩])) ↔
          ∃ mo ∈ Zip3.months, mo.ym = ym ∧
            ∃ r ∈ Zip3.rowsOf [⟨"c", "100", 0, 30⟩, ⟨"c", "200", 10, 40⟩] "c",
              Zip3.overlaps r mo = true) ∧
        (∀ ym z, (("c" : String), ym, z) ∈
            Zip3.processMultiRow [⟨"c", "100", 0, 30⟩, ⟨"c", "200", 10, 40⟩]
              (Zip3.multiCardids [⟨"c", "100", 0, 30⟩, ⟨"c", "200", 10, 40⟩]) →
          ∃ mo ∈ Zip3.months, mo.ym = ym ∧
            z ∈ Zip3.candZips
              (Zip3.rowsOf [⟨"c", "100", 0, 30⟩, ⟨"c", "200", 10, 40⟩] "c") mo ∧
            ∀ z' ∈ Zip3.candZips
                (Zip3.rowsOf [⟨"c", "100", 0, 30⟩, ⟨"c", "200", 10, 40⟩] "c") mo,
              Zip3.totalDays
                  (Zip3.rowsOf [⟨"c", "100", 0, 30⟩, ⟨"c", "200", 10, 40⟩] "c") mo z'
                ≤ Zip3.totalDays
                  (Zip3.rowsOf [⟨"c", "100", 0, 30⟩, ⟨"c", "200", 10, 40⟩] "c") mo z) ∧
        ∀ mo z, Zip3.totalDays
              (Zip3.rowsOf [⟨"c", "100", 0, 30⟩, ⟨"c", "200", 10, 40⟩] "c") mo z
            = (((Zip3.rowsOf [⟨"c", "100", 0, 30⟩, ⟨"c", "200", 10, 40⟩] "c").filter
                (fun r => (decide (r.valid_begin ≤ mo.e) &&
                    decide (mo.s ≤ r.valid_end)) && (r.zip == z))).map
              (fun r => min r.valid_end mo.e - max r.valid_begin mo.s + 1)).sum) :=
  ⟨by decide,
    c3_modal_zip3_per_card_month [⟨"c", "100", 0, 30⟩, ⟨"c", "200", 10, 40⟩] "c"
      (by decide)⟩

theorem generateWindowsAux_spec (wd : Int) (hw : 0 < wd) (endT : Int) :
    ∀ (n : ℕ) (current : Int), (endT - current).toNat ≤ n → current < endT →
      Panelize.generateWindowsAux wd hw endT current ≠ [] ∧
        (Panelize.generateWindowsAux wd hw endT current).head?.map Prod.fst
          = some current ∧
        (Panelize.generateWindowsAux wd hw endT current).getLast?.map Prod.snd
          = some endT ∧
        List.Chain' (fun a b => a.2 = b.1)
          (Panelize.generateWindowsAux wd hw endT current) ∧
        (wd ≤ endT - current →
          ∀ w ∈ Panelize.generateWindowsAux wd hw endT current,
            wd ≤ w.2 - w.1 ∧ w.2 - w.1 < 2 * wd) := by
  intro n
  induction n with
  | zero =>
    intro current hle hlt
    exact absurd hle (by omega)
  | succ n ih =>
    intro current hle hlt
    rw [Panelize.generateWindowsAux, dif_pos hlt]
    by_cases h1 : current + wd ≥ endT
    · rw [if_pos h1]
      refine ⟨by simp, by simp, by simp, by simp, ?_⟩
      intro hcond w hwmem
      have hw' : w = (current, endT) := by simpa using hwmem
      subst hw'
      constructor <;> simp <;> omega
    · rw [if_neg h1]
      by_cases h2 : endT - (current + wd) < wd
      · rw [if_pos h2]
        refine ⟨by simp, by simp, by simp, by simp, ?_⟩
        intro hcond w hwmem
        have hw' : w = (current, endT) := by simpa using hwmem
        subst hw'
        constructor <;> simp <;> omega
      · rw [if_neg h2]
        have hlt' : current + wd < endT := by omega
        have hle' : (endT - (current + wd)).toNat ≤ n := by omega
        obtain ⟨hne, hhead, hlast, hchain, hspan⟩ := ih (current + wd) hle' hlt'
        refine ⟨by simp, by simp, ?_, ?_, ?_⟩
        · obtain ⟨y, t, hyt⟩ := List.exists_cons_of_ne_nil hne
          rw [hyt, List.getLast?_cons_cons]
          rw [hyt] at hlast
          exact hlast
        · rw [List.chain'_cons']
          refine ⟨?_, hchain⟩
          intro y hy
          have : (Panelize.generateWindowsAux wd hw endT (current + wd)).head?.map
              Prod.fst = some y.1 := by rw [hy]; rfl
          rw [hhead] at this
          have hy1 : y.1 = current + wd := (Option.some_injective _ this).symm
          simpa [hy1]
        · intro hcond w hwmem
          rcases List.mem_cons.mp hwmem with rfl | hmem
          · constructor <;> simp <;> omega
          · exact hspan (by omega) w hmem

/-- C8: for any timestamps with `start < end` (and a positive window length,
without which the Python loop never terminates), `generate_windows` returns a
non-empty list whose first window starts at `start`, whose last window ends
at `end`, in which each window starts where the previous one ends, and —
whenever the study period is at least `window_days` long — every window spans
at least `window_days` and strictly fewer than `2 * window_days` days. -/
theorem c8_generate_windows_covering (start endT wd : Int) (hw : 0 < wd)
    (hse : start < endT) :
    Panelize.generateWindows start endT wd hw ≠ [] ∧
      (Panelize.generateWindows start endT wd hw).head?.map Prod.fst = some start ∧
      (Panelize.generateWindows start endT wd hw).getLast?.map Prod.snd = some endT ∧
      List.Chain' (fun a b => a.2 = b.1) (Panelize.generateWindows start endT wd hw) ∧
      (wd ≤ endT - start →
        ∀ w ∈ Panelize.generateWindows start endT wd hw,
          wd ≤ w.2 - w.1 ∧ w.2 - w.1 < 2 * wd) :=
  generateWindowsAux_spec wd hw endT (endT - start).toNat start (le_refl _) hse

/-- C8 witness: the theorem applied at `start = 0`, `end = 10`,
`window_days = 3` (windows `(0,3), (3,6), (6,10)`). -/
theorem c8_witness :
    ((0 : Int) < 3) ∧ ((0 : Int) < 10) ∧
      (Panelize.generateWindows 0 10 3 (by norm_num) ≠ [] ∧
        (Panelize.generateWindows 0 10 3 (by norm_num)).head?.map Prod.fst = some 0 ∧
        (Panelize.generateWindows 0 10 3 (by norm_num)).getLast?.map Prod.snd
          = some 10 ∧
        List.Chain' (fun a b => a.2 = b.1)
          (Panelize.generateWindows 0 10 3 (by norm_num)) ∧
        ((3 : Int) ≤ 10 - 0 →
          ∀ w ∈ Panelize.generateWindows 0 10 3 (by norm_num),
            (3 : Int) ≤ w.2 - w.1 ∧ w.2 - w.1 < 2 * 3)) :=
  ⟨by decide, by decide, c8_generate_windows_covering 0 10 3 (by norm_num) (by decide)⟩
